import Mathlib

/-!
# Verification of the comment-board backend (`app.py`)

A shallow embedding of the request-admission and persistence core of the
comment-board service: the in-memory sliding-window rate limiter
(`rate_limited`), the comment store and its query pipeline
(`get_comments`), the creation path (`post_comment`) and the admin
deletion path (`delete_comment`).

Modelling conventions:
* Wall-clock instants for the rate limiter are nonnegative integers in
  seconds (Python `time.time()`); instants for comment timestamps are
  nonnegative integers in microseconds (Python `datetime` resolution).
  `int(ts.timestamp() * 1000)` thus becomes truncating division by 1000.
* The rate-limiter dictionary `rate_store` (`{ip: [timestamps...]}`) is a
  total function `String → List Nat` whose default value is `[]`,
  matching `rate_store.get(ip, [])`.
* Python string truthiness (`a or b` on strings/None) is `pyStrOr`.
* Request bodies are records of optional string fields (`data.get(k)`).
-/

/-- `RATE_LIMIT_WINDOW = 60` seconds (app.py line 17). -/
def RATE_LIMIT_WINDOW : Nat := 60

/-- `RATE_LIMIT_MAX = 5` posts per window per IP (app.py line 18). -/
def RATE_LIMIT_MAX : Nat := 5

/-- Python `a or b` where `a` is an optional string (`None` and `""` are
falsy) and `b` is a string: returns `a`'s value when present and
non-empty, otherwise `b`. -/
def pyStrOr (a : Option String) (b : String) : String :=
  match a with
  | some s => if s = "" then b else s
  | none => b

/-- A persisted comment record (app.py lines 33-39).  `ts` is the
creation instant in microseconds since the epoch. -/
structure Comment where
  id : Nat
  name : String
  msg : String
  ts : Nat
  approved : Bool
deriving DecidableEq, Repr

/-- The JSON DTO produced by `Comment.to_dict` (app.py lines 41-49):
`ts` is translated to integer epoch milliseconds. -/
structure CommentDTO where
  id : Nat
  name : String
  msg : String
  ts : Nat
  approved : Bool
deriving DecidableEq, Repr

/-- `Comment.to_dict` (app.py lines 41-49): `int(self.ts.timestamp() * 1000)`
truncates the microsecond instant to whole milliseconds. -/
def Comment.to_dict (c : Comment) : CommentDTO :=
  { id := c.id, name := c.name, msg := c.msg, ts := c.ts / 1000,
    approved := c.approved }

/-- The comment table plus the id sequence of the persistence layer. -/
structure CommentStore where
  comments : List Comment
  nextId : Nat
deriving DecidableEq, Repr

/-- The empty comment table at process start (`db.create_all()`). -/
def CommentStore.empty : CommentStore := { comments := [], nextId := 1 }

/-- Modelled from the spec: id assignment is performed by the persistence
layer (SQLAlchemy primary-key column, app.py line 35), whose code is not
part of this repository.  Spec §3: ids are "assigned by the store on
creation, monotonically increasing, never reused", so the store keeps a
counter `nextId` that only ever increases.  `create` inserts a record
with `approved = true` (column default, app.py line 39). -/
def CommentStore.create (s : CommentStore) (name msg : String) (ts : Nat) :
    Comment × CommentStore :=
  let c : Comment := { id := s.nextId, name := name, msg := msg, ts := ts,
                       approved := true }
  (c, { comments := s.comments ++ [c], nextId := s.nextId + 1 })

/-- `Comment.query.get(comment_id)` (app.py line 114): point lookup by id. -/
def CommentStore.getById (s : CommentStore) (id : Nat) : Option Comment :=
  s.comments.find? (fun c => c.id = id)

/-- `db.session.delete(c)` for the record with the given id
(app.py lines 117-118); the id sequence is untouched. -/
def CommentStore.deleteById (s : CommentStore) (id : Nat) : CommentStore :=
  { comments := s.comments.filter (fun c => c.id ≠ id), nextId := s.nextId }

/-- The SQL query of app.py line 85 up to pagination:
`filter_by(approved=True).order_by(Comment.ts.desc())` — keep approved
records, sort by timestamp descending. -/
def queryApproved (comments : List Comment) : List Comment :=
  (comments.filter (fun c => c.approved)).mergeSort
    (fun a b => Nat.ble b.ts a.ts)

/-- The whole service state: the rate limiter's `rate_store` dictionary
(app.py line 53) and the comment table. -/
structure AppState where
  rateStore : String → List Nat
  store : CommentStore

/-- State at process start: empty rate dictionary, empty table. -/
def AppState.init : AppState :=
  { rateStore := fun _ => [], store := CommentStore.empty }

/-- Outcome of the `rate_limited` admission check. -/
inductive RateResult where
  | rejected
  | admitted
deriving DecidableEq, Repr

/-- The pruning step of app.py line 62:
`arr = [t for t in arr if now - t < RATE_LIMIT_WINDOW]`. -/
def prunedArr (now : Nat) (arr : List Nat) : List Nat :=
  arr.filter (fun t => now - t < RATE_LIMIT_WINDOW)

/-- The sliding-window admission check of the `rate_limited` decorator
(app.py lines 55-68): prune timestamps with `now - t < RATE_LIMIT_WINDOW`,
reject with 429 when `len(arr) >= RATE_LIMIT_MAX` (leaving `rate_store`
untouched — the pruned list is not written back), otherwise append `now`
and store the list back under `ip`. -/
def rate_limited (now : Nat) (ip : String) (rs : String → List Nat) :
    RateResult × (String → List Nat) :=
  let arr := prunedArr now (rs ip)
  if RATE_LIMIT_MAX ≤ arr.length then
    (RateResult.rejected, rs)
  else
    (RateResult.admitted, fun k => if k = ip then arr ++ [now] else rs k)

/-- The request body of `POST /api/comments` after
`request.get_json()` / `request.form.to_dict()`: each field is `none`
when the key is absent. -/
structure CreateRequest where
  name : Option String
  msg : Option String
  message : Option String
deriving DecidableEq, Repr

/-- Outcome of `post_comment`: 429, 400 `empty_message`, or 201 with the
created record's DTO. -/
inductive PostResult where
  | rateLimited
  | emptyMessage
  | created (dto : CommentDTO)
deriving DecidableEq, Repr

/-- Python string slicing `s[:n]`: the first `n` characters of `s`
(extensionally equal to `String.take`, stated on the character list so
that it evaluates by structural recursion). -/
def strTake (s : String) (n : Nat) : String := String.mk (s.data.take n)

/-- Python `str.strip()`: remove leading and trailing whitespace
characters (extensionally equal to `String.trim`, stated on the
character list so that it evaluates by structural recursion). -/
def pyStrip (s : String) : String :=
  String.mk
    (((s.data.dropWhile Char.isWhitespace).reverse.dropWhile
        Char.isWhitespace).reverse)

/-- The normalized name of app.py line 97:
`(data.get("name") or "Аноним").strip()[:80]`. -/
def normName (req : CreateRequest) : String :=
  strTake (pyStrip (pyStrOr req.name "Аноним")) 80

/-- The normalized message of app.py line 98:
`(data.get("msg") or data.get("message") or "").strip()[:2000]`. -/
def normMsg (req : CreateRequest) : String :=
  strTake (pyStrip (pyStrOr req.msg (pyStrOr req.message ""))) 2000

/-- `post_comment` (app.py lines 88-106), including its `rate_limited`
decorator which runs first.  `nowSec` is the `time.time()` read of the
limiter (seconds); `nowUs` is the `datetime.now(timezone.utc)` read used
for the record's timestamp (microseconds). -/
def post_comment (st : AppState) (ip : String) (nowSec nowUs : Nat)
    (req : CreateRequest) : PostResult × AppState :=
  match rate_limited nowSec ip st.rateStore with
  | (RateResult.rejected, rs) =>
    (PostResult.rateLimited, { st with rateStore := rs })
  | (RateResult.admitted, rs) =>
    let msg := normMsg req
    if msg = "" then
      (PostResult.emptyMessage, { st with rateStore := rs })
    else
      let name := normName req
      let r := st.store.create (if name = "" then "Аноним" else name) msg nowUs
      (PostResult.created r.1.to_dict, { rateStore := rs, store := r.2 })

/-- `get_comments` (app.py lines 75-86) after successful integer parsing
of `limit` and `offset` (defaults 100 and 0 already applied):
`limit = min(200, limit)`, `offset = max(0, offset)`, then the paginated
query of line 85.  A negative SQL LIMIT means "no upper bound" (SQLite
semantics for the external persistence layer), hence the `limit < 0`
branch. -/
def get_comments (s : CommentStore) (limitArg offsetArg : Int) :
    List CommentDTO :=
  let limit : Int := min 200 limitArg
  let offset : Int := max 0 offsetArg
  let dropped := (queryApproved s.comments).drop offset.toNat
  let items := if limit < 0 then dropped else dropped.take limit.toNat
  items.map Comment.to_dict

/-- Outcome of `delete_comment`: 403, 404 or 200. -/
inductive DeleteResult where
  | forbidden
  | notFound
  | ok
deriving DecidableEq, Repr

/-- `delete_comment` (app.py lines 108-119).  `ADMIN_KEY` is the
environment-configured secret (empty when unset, app.py line 14);
`headerKey`/`argKey` are `X-ADMIN-KEY` header and `admin_key` query
parameter.  `if not ADMIN_KEY or key != ADMIN_KEY: 403`. -/
def delete_comment (ADMIN_KEY : String) (st : AppState)
    (headerKey argKey : Option String) (comment_id : Nat) :
    DeleteResult × AppState :=
  let key := pyStrOr headerKey (pyStrOr argKey "")
  if ADMIN_KEY = "" ∨ key ≠ ADMIN_KEY then
    (DeleteResult.forbidden, st)
  else
    match st.store.getById comment_id with
    | none => (DeleteResult.notFound, st)
    | some _ =>
      (DeleteResult.ok, { st with store := st.store.deleteById comment_id })

/-- A mutating store operation: a successful comment creation or an
admin deletion, the only operations that change the comment table. -/
inductive StoreOp where
  | create (name msg : String) (ts : Nat)
  | delete (id : Nat)
deriving DecidableEq, Repr

/-- Effect of one mutating operation on the store: `create` inserts via
`CommentStore.create`; `delete` removes the record when it exists
(`delete_comment` after an id lookup, app.py lines 114-118). -/
def applyOp (s : CommentStore) : StoreOp → CommentStore
  | StoreOp.create n m t => (s.create n m t).2
  | StoreOp.delete i =>
    match s.getById i with
    | none => s
    | some _ => s.deleteById i

/-- The store after a sequence of create/delete operations. -/
def runOps (s : CommentStore) (ops : List StoreOp) : CommentStore :=
  ops.foldl applyOp s

/-- The ids handed out by the store along a sequence of operations, in
assignment order (one per `create`). -/
def assignedIds (s : CommentStore) : List StoreOp → List Nat
  | [] => []
  | StoreOp.create n m t :: rest =>
    s.nextId :: assignedIds (applyOp s (StoreOp.create n m t)) rest
  | StoreOp.delete i :: rest =>
    assignedIds (applyOp s (StoreOp.delete i)) rest

/-! ## Concrete fixtures -/

/-- A well-formed creation request (`{"name": "Ann", "msg": "hi"}`). -/
def reqAnn : CreateRequest :=
  { name := some "Ann", msg := some "hi", message := none }

/-- A creation request carrying non-empty messages under both keys
(`{"msg": "A", "message": "B"}`). -/
def reqBothKeys : CreateRequest :=
  { name := none, msg := some "A", message := some "B" }

/-- A store holding 201 approved comments, enough to exceed the page cap. -/
def manyComments : CommentStore :=
  { comments := (List.range 201).map
      (fun i => { id := i, name := "a", msg := "b", ts := i,
                  approved := true }),
    nextId := 201 }

/-- A two-record store, one approved and one unapproved comment. -/
def smallStore : CommentStore :=
  { comments :=
      [{ id := 1, name := "x", msg := "m1", ts := 5000, approved := true },
       { id := 2, name := "y", msg := "m2", ts := 9000, approved := false }],
    nextId := 3 }

/-! ## Helper lemmas -/

theorem rate_limited_of_le (now : Nat) (ip : String) (rs : String → List Nat)
    (h : RATE_LIMIT_MAX ≤ (prunedArr now (rs ip)).length) :
    rate_limited now ip rs = (RateResult.rejected, rs) := by
  simp only [rate_limited, if_pos h]

theorem rate_limited_of_lt (now : Nat) (ip : String) (rs : String → List Nat)
    (h : (prunedArr now (rs ip)).length < RATE_LIMIT_MAX) :
    rate_limited now ip rs =
      (RateResult.admitted,
       fun k => if k = ip then prunedArr now (rs ip) ++ [now] else rs k) := by
  simp only [rate_limited, if_neg (Nat.not_le.mpr h)]

/-! ## Claim theorems -/

/-- C1: a comment-creation attempt is admitted iff fewer than
`RATE_LIMIT_MAX = 5` previously recorded attempts from the client address
have timestamps within `RATE_LIMIT_WINDOW = 60` seconds of the current
time; an admitted attempt's timestamp is appended to that address's list,
and a rejected attempt is answered 429 and leaves the state unchanged. -/
theorem post_comment_admission_iff (st : AppState) (ip : String)
    (nowSec nowUs : Nat) (req : CreateRequest) :
    ((post_comment st ip nowSec nowUs req).1 ≠ PostResult.rateLimited ↔
      (prunedArr nowSec (st.rateStore ip)).length < RATE_LIMIT_MAX) ∧
    ((prunedArr nowSec (st.rateStore ip)).length < RATE_LIMIT_MAX →
      (post_comment st ip nowSec nowUs req).2.rateStore ip =
        prunedArr nowSec (st.rateStore ip) ++ [nowSec]) ∧
    (RATE_LIMIT_MAX ≤ (prunedArr nowSec (st.rateStore ip)).length →
      (post_comment st ip nowSec nowUs req).1 = PostResult.rateLimited ∧
      (post_comment st ip nowSec nowUs req).2 = st) := by
  by_cases h : RATE_LIMIT_MAX ≤ (prunedArr nowSec (st.rateStore ip)).length
  · refine ⟨?_, ?_, fun _ => ?_⟩
    · simp only [post_comment, rate_limited_of_le nowSec ip st.rateStore h]
      simp only [ne_eq, not_true_eq_false, false_iff, Nat.not_lt]
      exact h
    · intro hlt; omega
    · simp only [post_comment, rate_limited_of_le nowSec ip st.rateStore h]
      exact ⟨trivial, trivial⟩
  · have hlt := Nat.not_le.mp h
    refine ⟨?_, fun _ => ?_, fun hle => absurd hle h⟩
    · simp only [post_comment, rate_limited_of_lt nowSec ip st.rateStore hlt]
      constructor
      · intro _; exact hlt
      · intro _
        by_cases hm : normMsg req = "" <;> simp [hm]
    · simp only [post_comment, rate_limited_of_lt nowSec ip st.rateStore hlt]
      by_cases hm : normMsg req = "" <;> simp [hm]

/-- C2: with an empty configured admin secret, `delete_comment` always
answers 403 Forbidden and leaves the state unchanged, whatever keys the
caller supplies. -/
theorem delete_comment_fail_closed (st : AppState)
    (headerKey argKey : Option String) (comment_id : Nat) :
    delete_comment "" st headerKey argKey comment_id =
      (DeleteResult.forbidden, st) := by
  simp [delete_comment]

/-- C10: a creation attempt rejected by the rate limiter leaves the
address-to-timestamps mapping exactly as it was: the pruned list is not
written back and the current time is not appended. -/
theorem rate_limited_reject_preserves_state (now : Nat) (ip : String)
    (rs : String → List Nat)
    (h : RATE_LIMIT_MAX ≤ (prunedArr now (rs ip)).length) :
    (rate_limited now ip rs).1 = RateResult.rejected ∧
    (rate_limited now ip rs).2 = rs := by
  rw [rate_limited_of_le now ip rs h]
  exact ⟨rfl, rfl⟩

theorem rate_limited_reject_preserves_state_witness :
    RATE_LIMIT_MAX ≤ (prunedArr 0 ((fun _ => [0, 0, 0, 0, 0]) "a")).length ∧
    ((rate_limited 0 "a" (fun _ => [0, 0, 0, 0, 0])).1 = RateResult.rejected ∧
     (rate_limited 0 "a" (fun _ => [0, 0, 0, 0, 0])).2 =
       (fun _ => [0, 0, 0, 0, 0])) :=
  ⟨by decide,
   rate_limited_reject_preserves_state 0 "a" (fun _ => [0, 0, 0, 0, 0])
     (by decide)⟩

/-- C9: a creation request admitted by the rate limiter but failing
validation with `empty_message` has already had its timestamp recorded in
the address's sliding-window list, consuming one admission slot. -/
theorem post_comment_validation_consumes_slot (st : AppState) (ip : String)
    (nowSec nowUs : Nat) (req : CreateRequest)
    (hallow : (prunedArr nowSec (st.rateStore ip)).length < RATE_LIMIT_MAX)
    (hempty : normMsg req = "") :
    (post_comment st ip nowSec nowUs req).1 = PostResult.emptyMessage ∧
    (post_comment st ip nowSec nowUs req).2.rateStore ip =
      prunedArr nowSec (st.rateStore ip) ++ [nowSec] := by
  simp only [post_comment, rate_limited_of_lt nowSec ip st.rateStore hallow,
    hempty, if_pos rfl]
  exact ⟨rfl, by simp⟩

theorem post_comment_validation_consumes_slot_witness :
    (prunedArr 0 (AppState.init.rateStore "a")).length < RATE_LIMIT_MAX ∧
    normMsg ⟨none, none, none⟩ = "" ∧
    ((post_comment AppState.init "a" 0 0 ⟨none, none, none⟩).1 =
       PostResult.emptyMessage ∧
     (post_comment AppState.init "a" 0 0 ⟨none, none, none⟩).2.rateStore "a" =
       prunedArr 0 (AppState.init.rateStore "a") ++ [0]) :=
  ⟨by decide, by decide,
   post_comment_validation_consumes_slot AppState.init "a" 0 0
     ⟨none, none, none⟩ (by decide) (by decide)⟩

theorem strTake_empty (n : Nat) : strTake "" n = "" := by
  simp [strTake]

theorem normMsg_eq_empty_of (req : CreateRequest)
    (hmsg : ∀ s, req.msg = some s → pyStrip s = "")
    (hmessage : ∀ s, req.message = some s → pyStrip s = "") :
    normMsg req = "" := by
  have hstrip : pyStrip (pyStrOr req.msg (pyStrOr req.message "")) = "" := by
    have hinner : pyStrip (pyStrOr req.message "") = "" := by
      cases hm2 : req.message with
      | some t =>
        by_cases ht : t = ""
        · subst ht; simp only [pyStrOr, if_pos rfl]; decide
        · simp only [pyStrOr, if_neg ht]; exact hmessage t hm2
      | none => simp only [pyStrOr]; decide
    cases hm : req.msg with
    | some s =>
      by_cases hs : s = ""
      · subst hs; simp only [pyStrOr, if_pos rfl]; exact hinner
      · simp only [pyStrOr, if_neg hs]; exact hmsg s hm
    | none => simp only [pyStrOr]; exact hinner
  unfold normMsg
  rw [hstrip, strTake_empty]

/-- C4: a creation request whose message is empty or whitespace-only
after stripping — whichever of the `msg`/`message` keys carries it —
fails with 400 `empty_message` and inserts nothing into the comment
store (stated for requests admitted by the rate limiter, which runs
first and otherwise answers 429). -/
theorem post_comment_empty_message_no_insert (st : AppState) (ip : String)
    (nowSec nowUs : Nat) (req : CreateRequest)
    (hallow : (prunedArr nowSec (st.rateStore ip)).length < RATE_LIMIT_MAX)
    (hmsg : ∀ s, req.msg = some s → pyStrip s = "")
    (hmessage : ∀ s, req.message = some s → pyStrip s = "") :
    (post_comment st ip nowSec nowUs req).1 = PostResult.emptyMessage ∧
    (post_comment st ip nowSec nowUs req).2.store = st.store := by
  have he : normMsg req = "" := normMsg_eq_empty_of req hmsg hmessage
  simp only [post_comment, rate_limited_of_lt nowSec ip st.rateStore hallow,
    he, if_pos rfl]
  exact ⟨rfl, rfl⟩

theorem post_comment_empty_message_no_insert_witness :
    (prunedArr 7 (AppState.init.rateStore "b")).length < RATE_LIMIT_MAX ∧
    ((post_comment AppState.init "b" 7 7
        { name := none, msg := some " ", message := some " " }).1 =
      PostResult.emptyMessage ∧
     (post_comment AppState.init "b" 7 7
        { name := none, msg := some " ", message := some " " }).2.store =
      AppState.init.store) :=
  ⟨by decide,
   post_comment_empty_message_no_insert AppState.init "b" 7 7
     { name := none, msg := some " ", message := some " " } (by decide)
     (fun s hs => Option.some.inj hs ▸ (by decide : pyStrip " " = ""))
     (fun s hs => Option.some.inj hs ▸ (by decide : pyStrip " " = ""))⟩

theorem mem_get_comments_200_0 (s : CommentStore) (c : Comment)
    (hc : c ∈ s.comments) (ha : c.approved = true)
    (hlen : s.comments.length ≤ 200) :
    c.to_dict ∈ get_comments s 200 0 := by
  have h1 : c ∈ s.comments.filter (fun c => c.approved) :=
    List.mem_filter.mpr ⟨hc, by simp [ha]⟩
  have h2 : c ∈ queryApproved s.comments := by
    unfold queryApproved
    exact List.mem_mergeSort.mpr h1
  have hlen2 : (queryApproved s.comments).length ≤ 200 := by
    unfold queryApproved
    rw [List.length_mergeSort]
    exact le_trans (List.length_filter_le _ _) hlen
  unfold get_comments
  have hneg : ¬ ((min (200 : Int) 200) < 0) := by norm_num
  simp only [hneg, if_false, ite_false]
  norm_num
  rw [List.take_of_length_le (by simpa using hlen2)]
  exact List.mem_map_of_mem _ h2

/-- C5: a successfully created comment, when the comments are immediately
listed, appears as a record whose `name`, `msg` and `approved` fields are
exactly those of the created record, and whose `ts` field is the creation
instant truncated to integer epoch milliseconds. -/
theorem post_comment_roundtrip (st : AppState) (ip : String)
    (nowSec nowUs : Nat) (req : CreateRequest)
    (hallow : (prunedArr nowSec (st.rateStore ip)).length < RATE_LIMIT_MAX)
    (hmsg : normMsg req ≠ "")
    (hlen : st.store.comments.length < 200) :
    ∃ d, (post_comment st ip nowSec nowUs req).1 = PostResult.created d ∧
      d ∈ get_comments (post_comment st ip nowSec nowUs req).2.store 200 0 ∧
      d.name = (if normName req = "" then "Аноним" else normName req) ∧
      d.msg = normMsg req ∧ d.approved = true ∧ d.ts = nowUs / 1000 := by
  simp only [post_comment, rate_limited_of_lt nowSec ip st.rateStore hallow,
    if_neg hmsg]
  refine ⟨_, rfl, ?_, rfl, rfl, rfl, rfl⟩
  refine mem_get_comments_200_0 _ _
    (List.mem_append_right _ (List.mem_singleton.mpr rfl)) rfl ?_
  simp only [CommentStore.create, List.length_append, List.length_singleton]
  omega

theorem post_comment_roundtrip_witness :
    (prunedArr 3 (AppState.init.rateStore "c")).length < RATE_LIMIT_MAX ∧
    normMsg reqAnn ≠ "" ∧
    AppState.init.store.comments.length < 200 ∧
    (∃ d, (post_comment AppState.init "c" 3 12345 reqAnn).1 =
          PostResult.created d ∧
      d ∈ get_comments
          (post_comment AppState.init "c" 3 12345 reqAnn).2.store 200 0 ∧
      d.name = (if normName reqAnn = "" then "Аноним" else normName reqAnn) ∧
      d.msg = normMsg reqAnn ∧
      d.approved = true ∧ d.ts = 12345 / 1000) :=
  ⟨by decide, by decide, by decide,
   post_comment_roundtrip AppState.init "c" 3 12345 reqAnn
     (by decide) (by decide) (by decide)⟩

theorem queryApproved_perm (l : List Comment) :
    (queryApproved l).Perm (l.filter (fun c => c.approved)) :=
  List.mergeSort_perm _ _

theorem queryApproved_pairwise (l : List Comment) :
    (queryApproved l).Pairwise (fun a b => b.ts ≤ a.ts) := by
  unfold queryApproved
  refine List.Pairwise.imp ?_
    (List.sorted_mergeSort ?_ ?_ (l.filter (fun c => c.approved)))
  · intro a b h
    exact Nat.le_of_ble_eq_true h
  · intro a b c hab hbc
    simp only [Nat.ble_eq] at *
    omega
  · intro a b
    simp only [Bool.or_eq_true, Nat.ble_eq]
    omega

/-- C6: a listing with valid pagination contains only approved records,
is ordered by creation timestamp descending, and equals the
timestamp-descending ordering of the approved records with exactly
`max 0 offset` records skipped from the front (then at most
`min 200 limit` taken). -/
theorem get_comments_approved_sorted_offset (s : CommentStore)
    (limitArg offsetArg : Int) (hl : 0 ≤ limitArg) :
    (∀ d ∈ get_comments s limitArg offsetArg,
        ∃ c, c ∈ s.comments ∧ c.approved = true ∧ d = c.to_dict) ∧
    (get_comments s limitArg offsetArg).Pairwise
      (fun a b => b.ts ≤ a.ts) ∧
    (queryApproved s.comments).Perm
      (s.comments.filter (fun c => c.approved)) ∧
    (queryApproved s.comments).Pairwise
      (fun a b : Comment => b.ts ≤ a.ts) ∧
    get_comments s limitArg offsetArg =
      (((queryApproved s.comments).drop (max 0 offsetArg).toNat).take
        (min 200 limitArg).toNat).map Comment.to_dict := by
  have hmin : 0 ≤ min 200 limitArg := le_min (by norm_num) hl
  have hneg : ¬ (min 200 limitArg < 0) := by omega
  have heq : get_comments s limitArg offsetArg =
      (((queryApproved s.comments).drop (max 0 offsetArg).toNat).take
        (min 200 limitArg).toNat).map Comment.to_dict := by
    unfold get_comments
    simp only [if_neg hneg]
  have hsub : ((((queryApproved s.comments).drop
      (max 0 offsetArg).toNat)).take (min 200 limitArg).toNat).Sublist
      (queryApproved s.comments) :=
    (List.take_sublist _ _).trans (List.drop_sublist _ _)
  refine ⟨?_, ?_, queryApproved_perm s.comments,
    queryApproved_pairwise s.comments, heq⟩
  · intro d hd
    rw [heq] at hd
    obtain ⟨c, hc, rfl⟩ := List.mem_map.mp hd
    have hcq : c ∈ queryApproved s.comments := hsub.mem hc
    have hcf := (queryApproved_perm s.comments).mem_iff.mp hcq
    have h2 := List.mem_filter.mp hcf
    exact ⟨c, h2.1, by simpa using h2.2, rfl⟩
  · rw [heq, List.pairwise_map]
    have hp := ((queryApproved_pairwise s.comments).sublist hsub)
    exact hp.imp (fun h => Nat.div_le_div_right h)

theorem get_comments_approved_sorted_offset_witness :
    (0 : Int) ≤ 100 ∧
    (queryApproved smallStore.comments).Perm
      (smallStore.comments.filter (fun c => c.approved)) :=
  ⟨by decide,
   (get_comments_approved_sorted_offset smallStore 100 0 (by decide)).2.2.1⟩

/-- C3 counterexample: with 201 approved comments in the store, the
request `limit = -1` passes `min(200, limit) = -1` to the store, and the
response carries all 201 items — more than 200 — so `limit` is not
clamped to the inclusive range `[0, 200]`. -/
theorem get_comments_no_lower_clamp_counterexample :
    200 < (get_comments manyComments (-1) 0).length := by
  have hall : manyComments.comments.filter (fun c => c.approved) =
      manyComments.comments := by
    rw [List.filter_eq_self]
    intro c hc
    simp only [manyComments, List.mem_map, List.mem_range] at hc
    obtain ⟨i, _, rfl⟩ := hc
    rfl
  have hneg : (min (200 : Int) (-1) < 0) := by norm_num
  unfold get_comments queryApproved
  rw [hall]
  simp only [if_pos hneg, List.length_map, List.length_drop,
    List.length_mergeSort]
  simp [manyComments]

/-- C3 amended: the list operation clamps `limit` only from above
(`limit := min(200, limit)`); a negative parsed `limit` is forwarded to
the store unclamped.  For every non-negative parsed `limit`, the response
never contains more than `min(limit, 200)` items, and never more than
200 items. -/
theorem get_comments_limit_clamped_above (s : CommentStore)
    (limitArg offsetArg : Int) (hl : 0 ≤ limitArg) :
    (get_comments s limitArg offsetArg).length ≤ min limitArg.toNat 200 ∧
    (get_comments s limitArg offsetArg).length ≤ 200 := by
  have hneg : ¬ (min (200 : Int) limitArg < 0) := by
    have : (0 : Int) ≤ min 200 limitArg := le_min (by norm_num) hl
    omega
  have hlen : (get_comments s limitArg offsetArg).length ≤
      (min (200 : Int) limitArg).toNat := by
    unfold get_comments
    simp only [if_neg hneg, List.length_map]
    rw [List.length_take]
    omega
  constructor
  · refine le_trans hlen ?_
    omega
  · refine le_trans hlen ?_
    omega

theorem get_comments_limit_clamped_above_witness :
    (0 : Int) ≤ 500 ∧
    ((get_comments manyComments 500 0).length ≤ min (500 : Int).toNat 200 ∧
     (get_comments manyComments 500 0).length ≤ 200) :=
  ⟨by decide, get_comments_limit_clamped_above manyComments 500 0 (by decide)⟩

/-- C7 counterexample: in a request carrying `msg = "A"` and
`message = "B"`, both present and non-empty, the stored message is `"A"`,
taken from the `msg` key — not from the `message` key as the claim
states. -/
theorem post_comment_msg_alias_counterexample :
    (post_comment AppState.init "a" 0 0 reqBothKeys).1 =
      PostResult.created
        { id := 1, name := "Аноним", msg := "A", ts := 0,
          approved := true } ∧
    (post_comment AppState.init "a" 0 0
        reqBothKeys).2.store.comments.map (fun c => c.msg) = ["A"] ∧
    "A" ≠ "B" := by decide

/-- C7 amended: when both the `msg` and `message` keys are present and
non-empty, the stored message comes from the `msg` key; `message` is only
a fallback alias used when `msg` is absent or empty. -/
theorem post_comment_msg_key_priority (st : AppState) (ip : String)
    (nowSec nowUs : Nat) (nameField : Option String) (m1 m2 : String)
    (hallow : (prunedArr nowSec (st.rateStore ip)).length < RATE_LIMIT_MAX)
    (hm : strTake (pyStrip m1) 2000 ≠ "") :
    ∃ d, (post_comment st ip nowSec nowUs
        { name := nameField, msg := some m1, message := some m2 }).1 =
      PostResult.created d ∧ d.msg = strTake (pyStrip m1) 2000 := by
  have hm1 : m1 ≠ "" := by
    intro h
    subst h
    exact hm (by decide)
  have hnorm : normMsg { name := nameField, msg := some m1, message := some m2 } = strTake (pyStrip m1) 2000 := by
    simp [normMsg, pyStrOr, hm1]
  simp only [post_comment, rate_limited_of_lt nowSec ip st.rateStore hallow,
    hnorm, if_neg hm]
  exact ⟨_, rfl, rfl⟩

theorem post_comment_msg_key_priority_witness :
    (prunedArr 9 (AppState.init.rateStore "d")).length < RATE_LIMIT_MAX ∧
    strTake (pyStrip "A") 2000 ≠ "" ∧
    (∃ d, (post_comment AppState.init "d" 9 9
        { name := none, msg := some "A", message := some "B" }).1 =
      PostResult.created d ∧ d.msg = strTake (pyStrip "A") 2000) :=
  ⟨by decide, by decide,
   post_comment_msg_key_priority AppState.init "d" 9 9 none "A" "B"
     (by decide) (by decide)⟩

theorem nextId_mono (s : CommentStore) (op : StoreOp) :
    s.nextId ≤ (applyOp s op).nextId := by
  cases op with
  | create n m t => exact Nat.le_succ s.nextId
  | delete i =>
    simp only [applyOp]
    cases s.getById i with
    | none => exact Nat.le_refl s.nextId
    | some c => exact Nat.le_refl s.nextId

theorem assignedIds_ge (s : CommentStore) (ops : List StoreOp) :
    ∀ i ∈ assignedIds s ops, s.nextId ≤ i := by
  induction ops generalizing s with
  | nil =>
    intro i hi
    simp [assignedIds] at hi
  | cons op rest ih =>
    intro i hi
    cases op with
    | create n m t =>
      simp only [assignedIds, List.mem_cons] at hi
      rcases hi with rfl | hi
      · exact le_refl _
      · exact le_trans (nextId_mono s _) (ih _ i hi)
    | delete j =>
      simp only [assignedIds] at hi
      exact le_trans (nextId_mono s _) (ih _ i hi)

theorem assignedIds_pairwise (s : CommentStore) (ops : List StoreOp) :
    (assignedIds s ops).Pairwise (· < ·) := by
  induction ops generalizing s with
  | nil => simp [assignedIds]
  | cons op rest ih =>
    cases op with
    | create n m t =>
      simp only [assignedIds]
      refine List.pairwise_cons.mpr ⟨?_, ih _⟩
      intro i hi
      have hle := assignedIds_ge (applyOp s (StoreOp.create n m t)) rest i hi
      have hnext : (applyOp s (StoreOp.create n m t)).nextId = s.nextId + 1 :=
        rfl
      omega
    | delete j =>
      simp only [assignedIds]
      exact ih _

theorem applyOp_id_inv (s : CommentStore) (op : StoreOp)
    (h1 : ∀ c ∈ s.comments, c.id < s.nextId)
    (h2 : (s.comments.map (fun c => c.id)).Nodup) :
    (∀ c ∈ (applyOp s op).comments, c.id < (applyOp s op).nextId) ∧
    ((applyOp s op).comments.map (fun c => c.id)).Nodup := by
  cases op with
  | create n m t =>
    constructor
    · intro c hc
      simp only [applyOp, CommentStore.create, List.mem_append,
        List.mem_singleton] at hc
      rcases hc with hc | rfl
      · exact Nat.lt_succ_of_lt (h1 c hc)
      · exact Nat.lt_succ_self _
    · simp only [applyOp, CommentStore.create, List.map_append,
        List.map_cons, List.map_nil]
      refine List.Nodup.append h2 (List.nodup_singleton _) ?_
      intro a ha hb
      rw [List.mem_singleton] at hb
      subst hb
      obtain ⟨c, hc, hcid⟩ := List.mem_map.mp ha
      exact absurd (hcid ▸ h1 c hc) (lt_irrefl _)
  | delete i =>
    simp only [applyOp]
    cases s.getById i with
    | none => exact ⟨h1, h2⟩
    | some c0 =>
      constructor
      · intro c hc
        have hc2 : c ∈ s.comments.filter (fun c => decide (c.id ≠ i)) := hc
        exact h1 c (List.mem_of_mem_filter hc2)
      · show ((s.comments.filter
            (fun c => decide (c.id ≠ i))).map (fun c => c.id)).Nodup
        exact h2.sublist ((List.filter_sublist _).map _)

theorem runOps_id_inv (ops : List StoreOp) (s : CommentStore)
    (h1 : ∀ c ∈ s.comments, c.id < s.nextId)
    (h2 : (s.comments.map (fun c => c.id)).Nodup) :
    (∀ c ∈ (runOps s ops).comments, c.id < (runOps s ops).nextId) ∧
    ((runOps s ops).comments.map (fun c => c.id)).Nodup := by
  induction ops generalizing s with
  | nil => exact ⟨h1, h2⟩
  | cons op rest ih =>
    simp only [runOps, List.foldl_cons] at *
    obtain ⟨g1, g2⟩ := applyOp_id_inv s op h1 h2
    exact ih _ g1 g2

/-- C8: across any sequence of create and delete operations starting from
the empty store, the stream of assigned ids is strictly increasing — so
every assigned id is unique, assignment order is monotone, and an id
freed by a delete is never handed out again — and the ids present in the
store are always pairwise distinct. -/
theorem store_id_invariants (ops : List StoreOp) :
    (assignedIds CommentStore.empty ops).Pairwise (· < ·) ∧
    ((runOps CommentStore.empty ops).comments.map (fun c => c.id)).Nodup := by
  refine ⟨assignedIds_pairwise _ _, ?_⟩
  refine (runOps_id_inv ops CommentStore.empty ?_ ?_).2
  · intro c hc
    simp [CommentStore.empty] at hc
  · simp [CommentStore.empty]
